import Mathlib

/-!
Verification development for the PlayUnreal predictive path planner and
Remote Control client (`python/playunreal/client.py`,
`Tools/PlayUnreal/path_planner.py` as described by the design spec).

The Python source is shallowly embedded: pure fragments become Lean
functions, the effectful client methods become functions from an explicit
fetch-outcome / cache-state to (result, new state), and exception flow
becomes `Except` / explicit error components.  Machine reals of the game
(positions, speeds) are modelled as `Int`; planner time is discretised to
`Nat` ticks.
-/

namespace PlayUnreal

/-! ## Data model -/

/-- A hazard snapshot entry, as returned by `get_hazards`
(fields `row`, `x`, `speed`, `movesRight`, `width`, `rideable`). -/
structure Hazard where
  row : Int
  x : Int
  speed : Int
  movesRight : Bool
  width : Int
  rideable : Bool
deriving DecidableEq, Repr

/-- Grid configuration constants consumed by the planner
(`cellSize`, `gridCols`, `hopDuration`). -/
structure GridConfig where
  cellSize : Int
  gridCols : Nat
  hopDuration : Nat
deriving DecidableEq, Repr

/-! ## client.py: hop direction validation (`PlayUnreal.hop`) -/

/-- Client-level errors (`PlayUnrealError` hierarchy, its
`RCConnectionError` subclass, plus Python `ValueError`). -/
inductive ClientError where
  | playUnrealError (msg : String)
  | rcConnectionError (msg : String)
  | valueError (msg : String)
deriving DecidableEq

/-- A 3-component vector as sent to the RC API (`FVector` dict). -/
structure Vec3 where
  x : Int
  y : Int
  z : Int
deriving DecidableEq, Repr

/-- The `_DIRECTIONS` table of `client.py`: direction token to `FVector`.
`none` models absence from the dict (`direction not in _DIRECTIONS`). -/
def directionVec (direction : String) : Option Vec3 :=
  if direction = "up" then some ⟨0, 1, 0⟩
  else if direction = "down" then some ⟨0, -1, 0⟩
  else if direction = "left" then some ⟨-1, 0, 0⟩
  else if direction = "right" then some ⟨1, 0, 0⟩
  else none

/-- One remote function call issued against the frog character. -/
structure FrogCall where
  functionName : String
  direction : Vec3
deriving DecidableEq, Repr

/-- Embedding of `PlayUnreal.hop`: validates the token against `_DIRECTIONS` before any
remote request; on a valid token issues exactly one `RequestHop` call.
The result is the trace of issued frog calls together with the raised
`ValueError` message, if any. -/
def hop (direction : String) : List FrogCall × Option ClientError :=
  match directionVec direction with
  | none =>
    ([], some (.valueError
      ("Invalid direction " ++ direction ++ ". Use: up, down, left, right")))
  | some v => ([⟨"RequestHop", v⟩], none)

/-! ## client.py: config cache (`PlayUnreal.get_config`) -/

/-- A parsed JSON config payload, modelled as an association list from
key to numeric value (the planner only consumes numeric constants). -/
def ConfigDict : Type := List (String × Int)

instance : DecidableEq ConfigDict := by
  unfold ConfigDict
  infer_instance

/-- The empty dict `{}` returned by `get_config` on failure. -/
def emptyConfig : ConfigDict := []

/-- Outcome of the remote `GetGameConfigJSON` fetch as observed by
`get_config`: a successful nonempty JSON payload that parses, an empty
`ReturnValue`, or one of the three caught exception kinds. -/
inductive ConfigFetchOutcome where
  | success (config : ConfigDict)
  | emptyReturn
  | callError
  | connError
  | decodeError
deriving DecidableEq

/-- Embedding of `PlayUnreal.get_config`: given the current class-level cache
(`PlayUnreal._cached_config`, `none` = Python `None`) and the fetch
outcome, returns the dict handed to the caller and the new cache state.
A populated cache short-circuits (no fetch is consulted); a successful
fetch populates the cache; every failure path returns `{}` and leaves
the cache empty. -/
def get_config (cached : Option ConfigDict) (fetch : ConfigFetchOutcome) :
    ConfigDict × Option ConfigDict :=
  match cached with
  | some c => (c, some c)
  | none =>
    match fetch with
    | .success config => (config, some config)
    | _ => (emptyConfig, none)

/-! ## client.py: hazard snapshot (`PlayUnreal.get_hazards`) -/

/-- Outcome of the remote `GetLaneHazardsJSON` fetch as observed by
`get_hazards`: a raised `CallError`, a raised `RCConnectionError` (the
`_put` transport raises it on `URLError`, carrying its message), a
missing or empty `ReturnValue`, a `ReturnValue` that fails to parse as
JSON, or parsed JSON whose `"hazards"` key is present (`some`) or
absent (`none`). -/
inductive HazardsFetchOutcome where
  | callError
  | connError (msg : String)
  | emptyReturn
  | badJson
  | parsed (hazards : Option (List Hazard))
deriving DecidableEq

/-- Embedding of `PlayUnreal.get_hazards`: the `except` tuple of the
source names only `CallError` and `json.JSONDecodeError`, so those
failures (and a missing or empty `ReturnValue` or `"hazards"` key)
silently yield `[]`, while an `RCConnectionError` raised by the `_put`
transport is not caught and propagates to the caller (the `.error`
case). -/
def get_hazards (fetch : HazardsFetchOutcome) : Except ClientError (List Hazard) :=
  match fetch with
  | .connError msg => .error (.rcConnectionError msg)
  | .parsed (some hs) => .ok hs
  | _ => .ok []

/-! ## client.py: navigate entry point (`PlayUnreal.navigate`) -/

/-- The message raised by `navigate` when `path_planner` cannot be
imported. -/
def navImportErrorMsg : String :=
  "path_planner module not found. Navigation requires Tools/PlayUnreal/path_planner.py on sys.path."

/-- Embedding of `PlayUnreal.navigate`: the argument `importOk` models whether
`from path_planner import navigate_to_home_slot` succeeds, carrying the
imported function; on `ImportError` a `PlayUnrealError` is raised, else
the planner result is returned unchanged with `target_col` and
`max_deaths` passed through verbatim. -/
def navigate {α : Type} (importOk : Option (Nat → Nat → α))
    (target_col max_deaths : Nat) : Except ClientError α :=
  match importOk with
  | none => .error (.playUnrealError navImportErrorMsg)
  | some navFn => .ok (navFn target_col max_deaths)

/-! ## path_planner (spec-modelled)

The module `Tools/PlayUnreal/path_planner.py` is not part of the
repository snapshot under verification; only its callers
(`client.navigate`, `ci/ci_demo_all_features.py`) are.  The definitions
below are therefore modelled from the design spec (sections 4.1, 4.2 and
4.4), with planner time discretised to `Nat` ticks and world coordinates
as `Int`. -/

/-- Modelled from the spec: `path_planner` default constants, used when
`GridConfig` is never populated (ConfigUnavailable fallback).  The cell
size and column count follow the FroggerMain grid (home slot columns
1, 4, 6, 8, 11); the hop duration is one planner tick. -/
def DEFAULT_CELL_SIZE : Int := 100

/-- Modelled from the spec: default grid column count. -/
def DEFAULT_GRID_COLS : Nat := 13

/-- Modelled from the spec: default hop duration, in planner ticks. -/
def DEFAULT_HOP_DURATION : Nat := 1

/-- Dictionary lookup with a default, as in Python `d.get(k, default)`. -/
def lookupD (d : ConfigDict) (key : String) (default : Int) : Int :=
  match List.find? (fun p => p.1 = key) d with
  | some p => p.2
  | none => default

/-- Modelled from the spec: `path_planner.init_from_config` — builds the
planner's `GridConfig` from the live config dict, falling back to the
documented default constants for every missing key (so an empty dict
yields exactly the defaults). -/
def init_from_config (d : ConfigDict) : GridConfig where
  cellSize := lookupD d "cellSize" DEFAULT_CELL_SIZE
  gridCols := (lookupD d "gridCols" (DEFAULT_GRID_COLS : Int)).toNat
  hopDuration := (lookupD d "hopDuration" (DEFAULT_HOP_DURATION : Int)).toNat

/-- Modelled from the spec: `path_planner.predict_hazard_x` — linear
extrapolation `x + direction * speed * dt` with direction `+1` when
`movesRight` else `-1`. -/
def predict_hazard_x (h : Hazard) (dt : Nat) : Int :=
  h.x + (if h.movesRight then 1 else -1) * h.speed * (dt : Int)

/-- Modelled from the spec: HazardModel `occupies` — converts the column
to the world-space cell span `[col * cellSize, (col + 1) * cellSize)`,
predicts the hazard span `[x', x' + width)` at `dt`, and tests 1-D
interval overlap. -/
def occupies (cfg : GridConfig) (h : Hazard) (col : Nat) (dt : Nat) : Bool :=
  let xp := predict_hazard_x h dt
  decide (xp < ((col : Int) + 1) * cfg.cellSize ∧ (col : Int) * cfg.cellSize < xp + h.width)

/-- Modelled from the spec: `is_column_safe` (code name
`is_column_safe_for_hop`) — true iff no hazard in the set occupies the
column at time `dt`. -/
def is_column_safe (cfg : GridConfig) (hazards : List Hazard) (col : Nat) (dt : Nat) : Bool :=
  hazards.all (fun h => !occupies cfg h col dt)

/-- Modelled from the spec: the dual-instant safety criterion used by the
safe-column search — the column is safe for both the hop start instant
`dt` and the hop landing instant `dt + hopDuration`. -/
def hop_window_safe (cfg : GridConfig) (hazards : List Hazard) (col : Nat) (dt : Nat) : Bool :=
  is_column_safe cfg hazards col dt && is_column_safe cfg hazards col (dt + cfg.hopDuration)

/-- Least `dt ≤ bound` satisfying `p`, or `none` when no such `dt`
exists (the minimal-wait computation over `[0, max_wait]`). -/
def firstUpTo (p : Nat → Bool) : Nat → Option Nat
  | 0 => if p 0 then some 0 else none
  | n + 1 =>
    match firstUpTo p n with
    | some d => some d
    | none => if p (n + 1) then some (n + 1) else none

/-- Unsigned distance between two columns. -/
def colDist (a b : Nat) : Nat := max a b - min a b

/-- Modelled from the spec: candidate ordering key — columns are ordered
by proximity to `target`, ties broken toward the progress direction
(the side of `target` the agent is moving toward from `current`). -/
def candKey (current target col : Nat) : Nat :=
  2 * colDist col target + (if (decide (current ≤ target)) = (decide (target ≤ col)) then 0 else 1)

/-- Insertion into a key-sorted list (stable insertion sort helper). -/
def insertByKey (key : Nat → Nat) (x : Nat) : List Nat → List Nat
  | [] => [x]
  | y :: ys => if key x < key y then x :: y :: ys else y :: insertByKey key x ys

/-- Insertion sort of candidate columns by `key`. -/
def sortByKey (key : Nat → Nat) : List Nat → List Nat
  | [] => []
  | x :: xs => insertByKey key x (sortByKey key xs)

/-- All grid columns `0, ..., gridCols - 1`, ordered by the candidate
key centred on `target`. -/
def candidateColumns (cfg : GridConfig) (current target : Nat) : List Nat :=
  sortByKey (candKey current target) (List.range cfg.gridCols)

/-- Fold over the ordered candidate list keeping the candidate with the
strictly smallest wait (an earlier candidate wins ties). -/
def pickBest (minWait : Nat → Option Nat) : List Nat → Option (Nat × Nat)
  | [] => none
  | c :: rest =>
    match minWait c, pickBest minWait rest with
    | none, r => r
    | some w, none => some (c, w)
    | some w, some (c', w') => if w ≤ w' then some (c, w) else some (c', w')

/-- Modelled from the spec: `find_safe_column` (code name
`find_safe_road_column`) — searches columns ordered by proximity to
`target_col`, for each candidate computing the minimal `dt ∈ [0, max_wait]`
at which it is safe for both the hop start and hop landing instants, and
returns the candidate with the smallest wait time, or `none` when no
column is safe within the budget. -/
def find_safe_column (cfg : GridConfig) (hazards : List Hazard)
    (current_col target_col max_wait : Nat) : Option (Nat × Nat) :=
  pickBest (fun col => firstUpTo (hop_window_safe cfg hazards col) max_wait)
    (candidateColumns cfg current_col target_col)

/-- Modelled from the spec: platform coverage — the predicted span
`[x', x' + width)` of a `rideable` hazard covers the column's cell
centre `(col + 1/2) * cellSize` (stated over doubled coordinates to
stay in `Int`). -/
def platform_covers (cfg : GridConfig) (h : Hazard) (col : Nat) (dt : Nat) : Bool :=
  let xp := predict_hazard_x h dt
  h.rideable &&
    decide (2 * xp ≤ 2 * (col : Int) * cfg.cellSize + cfg.cellSize ∧
      2 * (col : Int) * cfg.cellSize + cfg.cellSize < 2 * (xp + h.width))

/-- Modelled from the spec: a river column is supported at `dt` iff some
rideable hazard's span covers it. -/
def column_supported (cfg : GridConfig) (hazards : List Hazard) (col : Nat) (dt : Nat) : Bool :=
  hazards.any (fun h => platform_covers cfg h col dt)

/-- Modelled from the spec: the platform search criterion — a single
rideable hazard covers the column both at the hop start instant `dt` and
at the look-ahead instant one hop-duration later (will the platform
still cover the column after landing). -/
def platform_window_safe (cfg : GridConfig) (hazards : List Hazard) (col : Nat) (dt : Nat) : Bool :=
  hazards.any (fun h =>
    platform_covers cfg h col dt && platform_covers cfg h col (dt + cfg.hopDuration))

/-- Modelled from the spec: `find_platform_column` — identical search to
`find_safe_column` with the inverted (coverage) safety predicate,
candidates ordered by proximity to the current column. -/
def find_platform_column (cfg : GridConfig) (hazards : List Hazard)
    (current_col max_wait : Nat) : Option (Nat × Nat) :=
  pickBest (fun col => firstUpTo (platform_window_safe cfg hazards col) max_wait)
    (candidateColumns cfg current_col current_col)

/-! ## NavigationController (spec-modelled)

One tick is a full `Planning → Acting → Observing` cycle; the outcome
observed at each tick — progress, death, goal reached, or a no-op — is
determined by the (bounded) hazard configuration and the game, so the
environment is modelled as an arbitrary function from tick index to
outcome, and the theorems quantify over it. -/

/-- Outcome classified by the `Observing` phase of one tick. -/
inductive Outcome where
  | progress
  | death
  | goal
  | noop
deriving DecidableEq

/-- Phase of the NavigationController state machine; `Acting` and
`Observing` are interior to a tick, so only the decision points remain. -/
inductive NavPhase where
  | planning
  | succeeded
  | failed
deriving DecidableEq

/-- Modelled from the spec: the controller's mutable state — the running
counters `total_hops` and `deaths` plus the current phase. -/
structure NavState where
  phase : NavPhase
  hops : Nat
  deaths : Nat
deriving DecidableEq

/-- Modelled from the spec: one NavigationController tick.  Terminal
phases are absorbing.  In `planning`: goal reached transitions to
`succeeded`; a death increments `deaths` and fails once the death budget
is exceeded; any other outcome (an issued hop making progress, or a
no-op counted by the stagnation guard) increments the hop counter and
fails once it reaches the internal hop ceiling. -/
def nav_tick (maxDeaths hopCeiling : Nat) (ob : Outcome) (s : NavState) : NavState :=
  match s.phase with
  | .succeeded => s
  | .failed => s
  | .planning =>
    match ob with
    | .goal => { s with phase := .succeeded }
    | .death =>
      { phase := if maxDeaths < s.deaths + 1 then .failed else .planning
        hops := s.hops
        deaths := s.deaths + 1 }
    | _ =>
      { phase := if hopCeiling ≤ s.hops + 1 then .failed else .planning
        hops := s.hops + 1
        deaths := s.deaths }

/-- The controller state after `n` ticks against environment `env`,
starting from fresh counters in `planning`. -/
def nav_run (env : Nat → Outcome) (maxDeaths hopCeiling : Nat) : Nat → NavState
  | 0 => ⟨.planning, 0, 0⟩
  | n + 1 => nav_tick maxDeaths hopCeiling (env n) (nav_run env maxDeaths hopCeiling n)

/-- The `NavigationResult` returned by `navigate_to_home_slot`
(`success`, `total_hops`, `deaths`; the wall-clock and state-snapshot
fields are outside the model). -/
structure NavResult where
  success : Bool
  total_hops : Nat
  deaths : Nat
deriving DecidableEq

/-- Modelled from the spec: `path_planner.navigate_to_home_slot` — runs
the controller loop to its termination bound and reports the outcome via
`NavigationResult` (failure is reported through `success = false`, never
through an exception). -/
def navigate_to_home_slot (env : Nat → Outcome) (maxDeaths hopCeiling : Nat) : NavResult :=
  let final := nav_run env maxDeaths hopCeiling (maxDeaths + hopCeiling)
  { success := decide (final.phase = .succeeded)
    total_hops := final.hops
    deaths := final.deaths }

/-! ## Lemma kit: minimal-wait search -/

theorem firstUpTo_eq_none_iff (p : Nat → Bool) :
    ∀ n, firstUpTo p n = none ↔ ∀ d, d ≤ n → p d = false := by
  intro n
  induction n with
  | zero =>
    simp only [firstUpTo, Nat.le_zero, forall_eq]
    constructor
    · intro h
      by_contra hp
      simp only [Bool.not_eq_false] at hp
      rw [hp] at h
      simp at h
    · intro h
      rw [h]
      rfl
  | succ n ih =>
    constructor
    · intro h d hd
      rw [firstUpTo] at h
      cases hf : firstUpTo p n with
      | some d0 =>
        rw [hf] at h
        exact absurd h (by simp)
      | none =>
        rw [hf] at h
        rcases Nat.lt_or_ge d (n + 1) with hlt | hge
        · exact (ih.mp hf) d (Nat.lt_succ_iff.mp hlt)
        · have hdeq : d = n + 1 := Nat.le_antisymm hd hge
          subst hdeq
          by_contra hp
          simp only [Bool.not_eq_false] at hp
          rw [hp] at h
          simp at h
    · intro hall
      rw [firstUpTo]
      have hnone : firstUpTo p n = none :=
        ih.mpr (fun d hd => hall d (Nat.le_succ_of_le hd))
      rw [hnone, hall (n + 1) (Nat.le_refl _)]
      rfl

theorem firstUpTo_eq_some_spec (p : Nat → Bool) :
    ∀ n d, firstUpTo p n = some d →
      p d = true ∧ d ≤ n ∧ ∀ d', p d' = true → d ≤ d' := by
  intro n
  induction n with
  | zero =>
    intro d h
    rw [firstUpTo] at h
    cases hp : p 0 with
    | false =>
      rw [hp] at h
      simp at h
    | true =>
      rw [hp] at h
      simp only [if_true] at h
      simp only [Option.some.injEq] at h
      subst h
      exact ⟨hp, Nat.le_refl 0, fun d' _ => Nat.zero_le d'⟩
  | succ n ih =>
    intro d h
    rw [firstUpTo] at h
    cases hf : firstUpTo p n with
    | some d0 =>
      rw [hf] at h
      simp only [Option.some.injEq] at h
      subst h
      obtain ⟨h1, h2, h3⟩ := ih d0 hf
      exact ⟨h1, Nat.le_succ_of_le h2, h3⟩
    | none =>
      rw [hf] at h
      cases hp : p (n + 1) with
      | false =>
        rw [hp] at h
        simp at h
      | true =>
        rw [hp] at h
        simp only [if_true] at h
        simp only [Option.some.injEq] at h
        subst h
        refine ⟨hp, Nat.le_refl _, fun d' hd' => ?_⟩
        by_contra hlt
        have hle : d' ≤ n := Nat.lt_succ_iff.mp (Nat.lt_of_not_le hlt)
        have := (firstUpTo_eq_none_iff p n).mp hf d' hle
        rw [hd'] at this
        exact absurd this (by simp)

/-! ## Lemma kit: candidate enumeration and best-pick -/

theorem mem_insertByKey (key : Nat → Nat) (x a : Nat) :
    ∀ l : List Nat, a ∈ insertByKey key x l ↔ a = x ∨ a ∈ l := by
  intro l
  induction l with
  | nil => simp [insertByKey]
  | cons y ys ih =>
    rw [insertByKey]
    by_cases hk : key x < key y
    · rw [if_pos hk]
      simp [List.mem_cons]
    · rw [if_neg hk]
      simp only [List.mem_cons, ih]
      tauto

theorem mem_sortByKey (key : Nat → Nat) :
    ∀ l : List Nat, ∀ a, a ∈ sortByKey key l ↔ a ∈ l := by
  intro l
  induction l with
  | nil => intro a; simp [sortByKey]
  | cons x xs ih =>
    intro a
    rw [sortByKey, mem_insertByKey]
    simp only [List.mem_cons, ih]

theorem mem_candidateColumns (cfg : GridConfig) (current target c : Nat) :
    c ∈ candidateColumns cfg current target ↔ c < cfg.gridCols := by
  rw [candidateColumns, mem_sortByKey, List.mem_range]

theorem pickBest_eq_none_iff (f : Nat → Option Nat) :
    ∀ l : List Nat, pickBest f l = none ↔ ∀ c ∈ l, f c = none := by
  intro l
  induction l with
  | nil => simp [pickBest]
  | cons c0 rest ih =>
    rw [pickBest]
    cases hf : f c0 with
    | none =>
      simp only [List.mem_cons]
      constructor
      · intro h c hc
        rcases hc with hc | hc
        · subst hc; exact hf
        · exact (ih.mp h) c hc
      · intro h
        exact ih.mpr (fun c hc => h c (Or.inr hc))
    | some w0 =>
      cases hr : pickBest f rest with
      | none =>
        simp only [List.mem_cons]
        constructor
        · intro h
          exact absurd h (by simp)
        · intro h
          exact absurd hf (by rw [h c0 (Or.inl rfl)]; simp)
      | some cw =>
        simp only [List.mem_cons]
        constructor
        · intro h
          rcases cw with ⟨c1, w1⟩
          by_cases hw : w0 ≤ w1
          · rw [if_pos hw] at h; exact absurd h (by simp)
          · rw [if_neg hw] at h; exact absurd h (by simp)
        · intro h
          exact absurd hf (by rw [h c0 (Or.inl rfl)]; simp)

theorem pickBest_eq_some_spec (f : Nat → Option Nat) :
    ∀ l : List Nat, ∀ c w, pickBest f l = some (c, w) →
      c ∈ l ∧ f c = some w ∧ ∀ c' ∈ l, ∀ w', f c' = some w' → w ≤ w' := by
  intro l
  induction l with
  | nil => intro c w h; simp [pickBest] at h
  | cons c0 rest ih =>
    intro c w h
    rw [pickBest] at h
    cases hf : f c0 with
    | none =>
      simp only [hf] at h
      obtain ⟨h1, h2, h3⟩ := ih c w h
      refine ⟨List.mem_cons_of_mem _ h1, h2, fun c' hc' w' hw' => ?_⟩
      rcases List.mem_cons.mp hc' with hc0 | hcr
      · subst hc0; rw [hf] at hw'; exact absurd hw' (by simp)
      · exact h3 c' hcr w' hw'
    | some w0 =>
      simp only [hf] at h
      cases hr : pickBest f rest with
      | none =>
        simp only [hr] at h
        simp only [Option.some.injEq, Prod.mk.injEq] at h
        obtain ⟨rfl, rfl⟩ := h
        refine ⟨List.mem_cons_self _ _, hf, fun c' hc' w' hw' => ?_⟩
        rcases List.mem_cons.mp hc' with hc0 | hcr
        · subst hc0
          rw [hf] at hw'
          simp only [Option.some.injEq] at hw'
          exact Nat.le_of_eq hw'
        · have := (pickBest_eq_none_iff f rest).mp hr c' hcr
          rw [this] at hw'
          exact absurd hw' (by simp)
      | some cw =>
        rcases cw with ⟨c1, w1⟩
        simp only [hr] at h
        obtain ⟨hm1, hm2, hm3⟩ := ih c1 w1 hr
        by_cases hw : w0 ≤ w1
        · rw [if_pos hw] at h
          simp only [Option.some.injEq, Prod.mk.injEq] at h
          obtain ⟨rfl, rfl⟩ := h
          refine ⟨List.mem_cons_self _ _, hf, fun c' hc' w' hw' => ?_⟩
          rcases List.mem_cons.mp hc' with hc0 | hcr
          · subst hc0
            rw [hf] at hw'
            simp only [Option.some.injEq] at hw'
            exact Nat.le_of_eq hw'
          · exact Nat.le_trans hw (hm3 c' hcr w' hw')
        · rw [if_neg hw] at h
          simp only [Option.some.injEq, Prod.mk.injEq] at h
          obtain ⟨rfl, rfl⟩ := h
          refine ⟨List.mem_cons_of_mem _ hm1, hm2, fun c' hc' w' hw' => ?_⟩
          rcases List.mem_cons.mp hc' with hc0 | hcr
          · subst hc0
            rw [hf] at hw'
            simp only [Option.some.injEq] at hw'
            subst hw'
            exact Nat.le_of_lt (Nat.lt_of_not_le hw)
          · exact hm3 c' hcr w' hw'

/-! ## Lemma kit: navigation controller -/

theorem nav_tick_terminal (maxD hc : Nat) (ob : Outcome) (s : NavState)
    (h : s.phase ≠ .planning) : nav_tick maxD hc ob s = s := by
  rcases s with ⟨ph, hops, deaths⟩
  cases ph with
  | planning => exact absurd rfl h
  | succeeded => rfl
  | failed => rfl

theorem nav_run_add (env : Nat → Outcome) (maxD hc n : Nat)
    (h : (nav_run env maxD hc n).phase ≠ .planning) :
    ∀ k, nav_run env maxD hc (n + k) = nav_run env maxD hc n := by
  intro k
  induction k with
  | zero => rfl
  | succ k ih =>
    rw [Nat.add_succ, nav_run, ih, nav_tick_terminal _ _ _ _ h]

theorem nav_run_planning_inv (env : Nat → Outcome) (maxD hc : Nat) (hpos : 0 < hc) :
    ∀ n, (nav_run env maxD hc n).phase = .planning →
      (nav_run env maxD hc n).deaths + (nav_run env maxD hc n).hops = n ∧
      (nav_run env maxD hc n).deaths ≤ maxD ∧
      (nav_run env maxD hc n).hops < hc := by
  intro n
  induction n with
  | zero => intro _; exact ⟨rfl, Nat.zero_le _, hpos⟩
  | succ n ih =>
    intro hpl
    rw [nav_run] at hpl ⊢
    rcases hs : nav_run env maxD hc n with ⟨ph, hops, deaths⟩
    rw [hs] at hpl ih
    cases ph with
    | succeeded => simp [nav_tick] at hpl
    | failed => simp [nav_tick] at hpl
    | planning =>
      obtain ⟨h1, h2, h3⟩ := ih rfl
      simp only at h1 h2 h3
      cases hob : env n with
      | goal =>
        rw [hob] at hpl
        simp [nav_tick] at hpl
      | death =>
        rw [hob] at hpl
        by_cases hd : maxD < deaths + 1
        · simp [nav_tick, hd] at hpl
        · simp only [nav_tick]
          refine ⟨by omega, by omega, h3⟩
      | progress =>
        rw [hob] at hpl
        by_cases hh : hc ≤ hops + 1
        · simp [nav_tick, hh] at hpl
        · simp only [nav_tick]
          refine ⟨by omega, h2, by omega⟩
      | noop =>
        rw [hob] at hpl
        by_cases hh : hc ≤ hops + 1
        · simp [nav_tick, hh] at hpl
        · simp only [nav_tick]
          refine ⟨by omega, h2, by omega⟩

theorem nav_run_not_planning (env : Nat → Outcome) (maxD hc n : Nat)
    (hpos : 0 < hc) (hn : maxD + hc ≤ n) :
    (nav_run env maxD hc n).phase ≠ .planning := by
  have hbase : (nav_run env maxD hc (maxD + hc)).phase ≠ .planning := by
    intro hpl
    obtain ⟨h1, h2, h3⟩ := nav_run_planning_inv env maxD hc hpos (maxD + hc) hpl
    omega
  have : nav_run env maxD hc n = nav_run env maxD hc (maxD + hc) := by
    have hsplit : n = (maxD + hc) + (n - (maxD + hc)) := by omega
    rw [hsplit]
    exact nav_run_add env maxD hc (maxD + hc) hbase _
  rw [this]
  exact hbase

/-! ## Claim theorems -/

/-- C1: soundness of the safe-column search — for every set of road
hazards on a row, every current and target column, and every `max_wait`,
if `find_safe_column` returns a column and a wait time, then
`is_column_safe` holds for that column at that wait time (and also at
the hop landing instant one hop-duration later): the search never
returns a column that is unsafe at the chosen wait time. -/
theorem find_safe_column_sound (cfg : GridConfig) (hazards : List Hazard)
    (current_col target_col max_wait col w : Nat)
    (h : find_safe_column cfg hazards current_col target_col max_wait = some (col, w)) :
    is_column_safe cfg hazards col w = true ∧
    is_column_safe cfg hazards col (w + cfg.hopDuration) = true := by
  rw [find_safe_column] at h
  obtain ⟨_, hfc, _⟩ := pickBest_eq_some_spec _ _ _ _ h
  obtain ⟨hsafe, _, _⟩ := firstUpTo_eq_some_spec _ _ _ hfc
  simp only [hop_window_safe, Bool.and_eq_true] at hsafe
  exact hsafe

/-- Witness for C1: the spec scenario — a single stationary road hazard
at `x = 0` of width 2, columns 0–9, current column 5, target column 7,
`max_wait` 2; the search returns column 7 with wait 0, which is safe. -/
theorem find_safe_column_sound_witness :
    is_column_safe ⟨1, 10, 1⟩ [⟨1, 0, 0, true, 2, false⟩] 7 0 = true ∧
    is_column_safe ⟨1, 10, 1⟩ [⟨1, 0, 0, true, 2, false⟩] 7 (0 + 1) = true :=
  find_safe_column_sound ⟨1, 10, 1⟩ [⟨1, 0, 0, true, 2, false⟩] 5 7 2 7 0 (by decide)

/-- C2: optimality and completeness of the safe-column search — a
returned candidate is in range, within budget, safe for its wait time,
and its wait time is minimal among all (column, wait) pairs that are
safe within `[0, max_wait]`; and the search returns `none` iff no
column is safe (for the search's dual-instant criterion) at any time in
`[0, max_wait]`. -/
theorem find_safe_column_optimal_complete (cfg : GridConfig) (hazards : List Hazard)
    (current_col target_col max_wait : Nat) :
    (∀ col w, find_safe_column cfg hazards current_col target_col max_wait = some (col, w) →
      col < cfg.gridCols ∧ w ≤ max_wait ∧ hop_window_safe cfg hazards col w = true ∧
      ∀ col' dt, col' < cfg.gridCols → dt ≤ max_wait →
        hop_window_safe cfg hazards col' dt = true → w ≤ dt) ∧
    (find_safe_column cfg hazards current_col target_col max_wait = none ↔
      ∀ col' dt, col' < cfg.gridCols → dt ≤ max_wait →
        hop_window_safe cfg hazards col' dt = false) := by
  constructor
  · intro col w h
    rw [find_safe_column] at h
    obtain ⟨hmem, hfc, hmin⟩ := pickBest_eq_some_spec _ _ _ _ h
    obtain ⟨hsafe, hle, _⟩ := firstUpTo_eq_some_spec _ _ _ hfc
    refine ⟨(mem_candidateColumns cfg current_col target_col col).mp hmem, hle, hsafe, ?_⟩
    intro col' dt hcol' hdt hsafe'
    have hmem' : col' ∈ candidateColumns cfg current_col target_col :=
      (mem_candidateColumns cfg current_col target_col col').mpr hcol'
    cases hfc' : firstUpTo (hop_window_safe cfg hazards col') max_wait with
    | none =>
      have hff := (firstUpTo_eq_none_iff _ max_wait).mp hfc' dt hdt
      rw [hsafe'] at hff
      exact absurd hff (by simp)
    | some w' =>
      obtain ⟨_, _, hmin'⟩ := firstUpTo_eq_some_spec _ _ _ hfc'
      exact Nat.le_trans (hmin col' hmem' w' hfc') (hmin' dt hsafe')
  · constructor
    · intro h col' dt hcol' hdt
      have hmem' := (mem_candidateColumns cfg current_col target_col col').mpr hcol'
      rw [find_safe_column] at h
      have hnone := (pickBest_eq_none_iff _ _).mp h col' hmem'
      exact (firstUpTo_eq_none_iff _ max_wait).mp hnone dt hdt
    · intro h
      rw [find_safe_column]
      refine (pickBest_eq_none_iff _ _).mpr ?_
      intro c hc
      refine (firstUpTo_eq_none_iff _ max_wait).mpr ?_
      intro d hd
      exact h c d ((mem_candidateColumns _ _ _ c).mp hc) hd

/-- Witness for C2: in the spec scenario the returned candidate
(column 7, wait 0) is in range, within budget, and safe. -/
theorem find_safe_column_optimal_witness :
    7 < (⟨1, 10, 1⟩ : GridConfig).gridCols ∧ (0 : Nat) ≤ 2 ∧
    hop_window_safe ⟨1, 10, 1⟩ [⟨1, 0, 0, true, 2, false⟩] 7 0 = true :=
  have h := (find_safe_column_optimal_complete ⟨1, 10, 1⟩
    [⟨1, 0, 0, true, 2, false⟩] 5 7 2).1 7 0 (by decide)
  ⟨h.1, h.2.1, h.2.2.1⟩

/-- C3: platform-search soundness with look-ahead — if
`find_platform_column` returns a column and a wait time, then at that
wait time the column is covered by the span of some rideable hazard,
and it is still covered at the look-ahead instant one hop-duration
later. -/
theorem find_platform_column_sound (cfg : GridConfig) (hazards : List Hazard)
    (current_col max_wait col w : Nat)
    (h : find_platform_column cfg hazards current_col max_wait = some (col, w)) :
    column_supported cfg hazards col w = true ∧
    column_supported cfg hazards col (w + cfg.hopDuration) = true := by
  rw [find_platform_column] at h
  obtain ⟨_, hfc, _⟩ := pickBest_eq_some_spec _ _ _ _ h
  obtain ⟨hsafe, _, _⟩ := firstUpTo_eq_some_spec _ _ _ hfc
  simp only [platform_window_safe, List.any_eq_true, Bool.and_eq_true] at hsafe
  obtain ⟨hz, hmem, hc1, hc2⟩ := hsafe
  constructor
  · simp only [column_supported, List.any_eq_true]
    exact ⟨hz, hmem, hc1⟩
  · simp only [column_supported, List.any_eq_true]
    exact ⟨hz, hmem, hc2⟩

/-- Witness for C3: the spec scenario — a river platform at `x = 0`,
speed 2 moving right, width 3, `max_wait` 3 from column 6; the search
returns column 2 with wait 0, covered now and one hop later. -/
theorem find_platform_column_sound_witness :
    column_supported ⟨1, 10, 1⟩ [⟨7, 0, 2, true, 3, true⟩] 2 0 = true ∧
    column_supported ⟨1, 10, 1⟩ [⟨7, 0, 2, true, 3, true⟩] 2 (0 + 1) = true :=
  find_platform_column_sound ⟨1, 10, 1⟩ [⟨7, 0, 2, true, 3, true⟩] 6 3 2 0 (by decide)

/-- C4: termination of the navigation loop — for every (bounded) hazard
configuration, modelled as an arbitrary per-tick outcome environment,
and every `max_deaths`, the controller has transitioned to `Succeeded`
or `Failed` (rather than hanging) within `max_deaths + hop_ceiling`
ticks, where `hop_ceiling` is the controller's internal hop-count
ceiling. -/
theorem navigation_loop_terminates (env : Nat → Outcome) (maxDeaths hopCeiling n : Nat)
    (hpos : 0 < hopCeiling) (hn : maxDeaths + hopCeiling ≤ n) :
    (nav_run env maxDeaths hopCeiling n).phase = .succeeded ∨
    (nav_run env maxDeaths hopCeiling n).phase = .failed := by
  have h := nav_run_not_planning env maxDeaths hopCeiling n hpos hn
  cases hph : (nav_run env maxDeaths hopCeiling n).phase with
  | planning => exact absurd hph h
  | succeeded => exact Or.inl rfl
  | failed => exact Or.inr rfl

/-- Witness for C4: with a hop ceiling of 1 and a death budget of 0, an
environment that always reports a no-op reaches a terminal phase after
one tick. -/
theorem navigation_loop_terminates_witness :
    (nav_run (fun _ => Outcome.noop) 0 1 1).phase = .succeeded ∨
    (nav_run (fun _ => Outcome.noop) 0 1 1).phase = .failed :=
  navigation_loop_terminates (fun _ => Outcome.noop) 0 1 1 (by decide) (by decide)

/-- C8: goal-unreachable reporting — `navigate_to_home_slot` reports an
exceeded death budget or hop ceiling via `success = false` (it is a
total function, so it never raises); and with `max_deaths = 0`, any
hazard configuration that forces a death — an environment whose run
observes a death at any tick at which the controller is still planning
— yields `success = false` and `deaths ≥ 1`. -/
theorem navigate_goal_unreachable_reported (env : Nat → Outcome) (hopCeiling : Nat)
    (hpos : 0 < hopCeiling) :
    (∀ maxDeaths,
      (nav_run env maxDeaths hopCeiling (maxDeaths + hopCeiling)).phase = .failed →
      (navigate_to_home_slot env maxDeaths hopCeiling).success = false) ∧
    (∀ k, (nav_run env 0 hopCeiling k).phase = .planning → env k = .death →
      (navigate_to_home_slot env 0 hopCeiling).success = false ∧
      1 ≤ (navigate_to_home_slot env 0 hopCeiling).deaths) := by
  constructor
  · intro maxDeaths hfail
    rw [navigate_to_home_slot]
    simp [hfail]
  · intro k hplan hdeath
    have hk : ¬(0 + hopCeiling ≤ k) := by
      intro hge
      exact nav_run_not_planning env 0 hopCeiling k hpos hge hplan
    rcases hsk : nav_run env 0 hopCeiling k with ⟨ph, hops, deaths⟩
    rw [hsk] at hplan
    simp only at hplan
    subst hplan
    have hstep : nav_run env 0 hopCeiling (k + 1) = ⟨.failed, hops, deaths + 1⟩ := by
      rw [nav_run, hdeath, hsk]
      simp only [nav_tick]
      rw [if_pos (Nat.succ_pos deaths)]
    have hrest : nav_run env 0 hopCeiling (0 + hopCeiling) = ⟨.failed, hops, deaths + 1⟩ := by
      have hsplit : 0 + hopCeiling = (k + 1) + (hopCeiling - (k + 1)) := by omega
      rw [hsplit,
        nav_run_add env 0 hopCeiling (k + 1) (by rw [hstep]; simp) (hopCeiling - (k + 1))]
      exact hstep
    rw [navigate_to_home_slot, hrest]
    constructor
    · simp
    · simp

/-- Witness for C8: an always-death environment with `max_deaths = 0`
and hop ceiling 1 is planning at tick 0, observes the death there, and
yields `success = false` and one recorded death. -/
theorem navigate_goal_unreachable_witness :
    (navigate_to_home_slot (fun _ => Outcome.death) 0 1).success = false ∧
    1 ≤ (navigate_to_home_slot (fun _ => Outcome.death) 0 1).deaths :=
  (navigate_goal_unreachable_reported (fun _ => Outcome.death) 1 (by decide)).2 0 rfl rfl

/-- C5: hop direction validation — for every string argument not among
`up`, `down`, `left`, `right`, `hop` raises a `ValueError` before
issuing any remote request (the issued-call trace is empty); for each of
the four valid tokens it issues exactly one `RequestHop` call with the
corresponding direction vector. -/
theorem hop_direction_validation :
    (∀ direction : String, direction ≠ "up" → direction ≠ "down" →
      direction ≠ "left" → direction ≠ "right" →
      hop direction =
        ([], some (.valueError
          ("Invalid direction " ++ direction ++ ". Use: up, down, left, right")))) ∧
    hop "up" = ([⟨"RequestHop", ⟨0, 1, 0⟩⟩], none) ∧
    hop "down" = ([⟨"RequestHop", ⟨0, -1, 0⟩⟩], none) ∧
    hop "left" = ([⟨"RequestHop", ⟨-1, 0, 0⟩⟩], none) ∧
    hop "right" = ([⟨"RequestHop", ⟨1, 0, 0⟩⟩], none) := by
  refine ⟨?_, rfl, rfl, rfl, rfl⟩
  intro direction h1 h2 h3 h4
  rw [hop, directionVec, if_neg h1, if_neg h2, if_neg h3, if_neg h4]

/-- Witness for C5: the CI probe token `diagonal` is rejected with an
empty call trace. -/
theorem hop_direction_validation_witness :
    hop "diagonal" =
      ([], some (.valueError
        ("Invalid direction " ++ "diagonal" ++ ". Use: up, down, left, right"))) :=
  hop_direction_validation.1 "diagonal" (by decide) (by decide) (by decide) (by decide)

/-- C6: write-once idempotent config cache — a populated cache is
returned unchanged by every later call regardless of the fetch outcome
(no re-fetch is observable), the first successful fetch writes the
cache, no failure outcome writes it, and repeating initialization from
an already-populated cache leaves the cache unchanged. -/
theorem get_config_write_once_idempotent :
    (∀ (c : ConfigDict) (fetch : ConfigFetchOutcome), get_config (some c) fetch = (c, some c)) ∧
    (∀ config : ConfigDict, get_config none (.success config) = (config, some config)) ∧
    get_config none .emptyReturn = (emptyConfig, none) ∧
    get_config none .callError = (emptyConfig, none) ∧
    get_config none .connError = (emptyConfig, none) ∧
    get_config none .decodeError = (emptyConfig, none) ∧
    (∀ (config : ConfigDict) (fetch2 : ConfigFetchOutcome),
      get_config (get_config none (.success config)).2 fetch2 = (config, some config)) :=
  ⟨fun _ _ => rfl, fun _ => rfl, rfl, rfl, rfl, rfl, fun _ _ => rfl⟩

/-- C7: ConfigUnavailable fallback — `get_config` returns (the empty
dict) without raising on a call, connection, or JSON-decode failure and
on an empty return value, and planner initialization from that empty
dict yields exactly the documented default constants. -/
theorem get_config_failure_falls_back_to_defaults :
    (get_config none .callError).1 = emptyConfig ∧
    (get_config none .connError).1 = emptyConfig ∧
    (get_config none .decodeError).1 = emptyConfig ∧
    (get_config none .emptyReturn).1 = emptyConfig ∧
    init_from_config emptyConfig =
      { cellSize := DEFAULT_CELL_SIZE, gridCols := DEFAULT_GRID_COLS,
        hopDuration := DEFAULT_HOP_DURATION } :=
  ⟨rfl, rfl, rfl, rfl, rfl⟩

/-- Counterexample to C9 as stated: `get_hazards` does not return the
empty list for every failure outcome — the source catches only
`CallError` and `json.JSONDecodeError`, so the `RCConnectionError`
raised by the `_put` transport on `URLError` propagates out uncaught,
and that failure is distinguishable from a successful empty snapshot. -/
theorem get_hazards_raises_on_connection_error :
    get_hazards (.connError "Cannot reach Remote Control API") ≠ .ok ([] : List Hazard) ∧
    get_hazards (.connError "Cannot reach Remote Control API") ≠
      get_hazards (.parsed (some [])) := by
  constructor
  · intro h
    simp [get_hazards] at h
  · intro h
    simp [get_hazards] at h

/-- C9 (amended): `get_hazards` silently returns `[]` on every caught
failure — a call error, a missing or empty return value, malformed
JSON, or a payload without a `hazards` key — making those outcomes
indistinguishable from a successful empty snapshot, and returns the
parsed list on success; but a connection error is not caught and
propagates to the caller unchanged. -/
theorem get_hazards_caught_failures_silent :
    get_hazards .callError = .ok [] ∧
    get_hazards .emptyReturn = .ok [] ∧
    get_hazards .badJson = .ok [] ∧
    get_hazards (.parsed none) = .ok [] ∧
    (∀ hs : List Hazard, get_hazards (.parsed (some hs)) = .ok hs) ∧
    get_hazards .callError = get_hazards (.parsed (some [])) ∧
    (∀ msg : String, get_hazards (.connError msg) = .error (.rcConnectionError msg)) :=
  ⟨rfl, rfl, rfl, rfl, fun _ => rfl, rfl, fun _ => rfl⟩

/-- C10: `navigate` raises a typed client error, not a raw import
error, when `path_planner` is absent — a `PlayUnrealError` whose
message names the missing module — and when the module is importable it
returns the planner's result unchanged, passing `target_col` and
`max_deaths` through verbatim. -/
theorem navigate_import_error_typed :
    (∀ (α : Type) (target_col max_deaths : Nat),
      navigate (none : Option (Nat → Nat → α)) target_col max_deaths =
        .error (.playUnrealError navImportErrorMsg)) ∧
    "path_planner".data <:+: navImportErrorMsg.data ∧
    (∀ (α : Type) (navFn : Nat → Nat → α) (target_col max_deaths : Nat),
      navigate (some navFn) target_col max_deaths = .ok (navFn target_col max_deaths)) := by
  refine ⟨fun _ _ _ => rfl, ?_, fun _ _ _ _ => rfl⟩
  decide

end PlayUnreal
